import Mathlib

set_option maxRecDepth 4000

/- Shallow embedding of the arke DNS master-file library:
   arke/tokenizer.py, arke/rr.py, arke/domain.py, arke/zone.py.
   Machine strings are lists of characters or Lean strings (which are
   lists of characters); Python exceptions are an explicit error type;
   the source's unbounded loops are fuel-indexed, with `none` meaning
   the fuel ran out. -/

/-- Python exceptions the embedded code can raise. -/
inductive PyErr where
  | typeError
  | attributeError
  | valueError
  | keyError (field : String)
  | stopIteration
  | unexpectedEOL
  | unexpectedEOF
  | unbalancedParens
  | unexpectedToken
  | missingData
deriving DecidableEq, Repr

/-! Tokenizer (arke/tokenizer.py). -/

inductive TokenType where
  | EOL
  | EOF
  | SPACE
  | COMMENT
  | STRING
  | WORD
deriving DecidableEq, Repr

/-- A token value: None, captured text, or a whitespace run length. -/
inductive TValue where
  | nullv
  | strv (s : String)
  | numv (n : Nat)
deriving DecidableEq, Repr

structure Position where
  line : Nat
  col : Nat
deriving DecidableEq, Repr

structure Token where
  type : TokenType
  value : TValue
  pos : Position
deriving DecidableEq, Repr

/-- The fixed delimiter set of the tokenizer (tokenizer.py DELIMITERS). -/
def DELIMITERS : List Char := [';', '(', ')', '\n', '\t', ' ', '"', '\'']

/-- Embeds `_is_whitespace`: a whitespace character that is not a newline
(ASCII cases of the regex class suffice for the inputs considered). -/
def isWs (c : Char) : Bool :=
  c = ' ' || c = '\t' || c = '\x0d' || c = '\x0b' || c = '\x0c'

/-- Embeds `_eat_whitespace`: consume a whitespace run, returning its length
and the rest of the input. -/
def eatWs : List Char → Nat × List Char
  | [] => (0, [])
  | c :: rest =>
    if isWs c then
      let p := eatWs rest
      (p.1 + 1, p.2)
    else (0, c :: rest)

/-- Embeds `_get_word`: accumulate characters up to the next delimiter or the
end of input (both leave the loop). -/
def getWord : List Char → List Char → List Char × List Char
  | [], acc => (acc, [])
  | c :: rest, acc =>
    if DELIMITERS.contains c then (acc, c :: rest)
    else getWord rest (acc ++ [c])

/-- Embeds the `_get_comment` loop. When the input is exhausted the source
appends the empty `read()` result and loops again without consuming
anything, so the exhausted case only burns fuel; `none` means the fuel ran
out. -/
def getCommentGo (fuel : Nat) (multiline : Nat) (input acc : List Char) :
    Option (List Char × List Char) :=
  match fuel with
  | 0 => none
  | fuel + 1 =>
    match input with
    | [] => getCommentGo fuel multiline [] acc
    | c :: rest =>
      if c = ')' && multiline != 0 then some (acc, c :: rest)
      else if c = '\n' then some (acc, c :: rest)
      else getCommentGo fuel multiline rest (acc ++ [c])

/-- Embeds the `_get_string` loop; the opening quote is already in `acc`.
When the input is exhausted the source appends the empty `read()` result
and loops (clearing `escaped`), so the exhausted case only burns fuel. -/
def getStringGo (fuel : Nat) (input : List Char) (escaped : Bool)
    (acc : List Char) : Option (Except PyErr (List Char × List Char)) :=
  match fuel with
  | 0 => none
  | fuel + 1 =>
    match input with
    | [] => getStringGo fuel [] false acc
    | c :: rest =>
      if c = '\\' && !escaped then
        getStringGo fuel rest true (acc ++ [c])
      else if escaped then
        let acc2 := acc ++ [c]
        if c = '"' then some (.ok (acc2, rest))
        else getStringGo fuel rest false acc2
      else if c = '\n' then some (.error .unexpectedEOL)
      else
        let acc2 := acc ++ [c]
        if c = '"' then some (.ok (acc2, rest))
        else getStringGo fuel rest false acc2

structure TState where
  input : List Char
  multiline : Nat
  escaped : Bool
  SOL : Bool
deriving DecidableEq, Repr

/-- Embeds `_Tokenizer.__iter__` as a fuel-indexed loop accumulating tokens;
the loop stops after emitting EOF or raising. `none` means the fuel ran
out (the source loops forever on some inputs). -/
def tokLoop (fuel : Nat) (s : TState) (line col : Nat) (acc : List Token) :
    Option (Except PyErr (List Token)) :=
  match fuel with
  | 0 => none
  | fuel + 1 =>
    match s.input with
    | [] =>
      if s.multiline != 0 then some (.error .unexpectedEOF)
      else some (.ok (acc ++ [⟨.EOF, .nullv, ⟨line, col⟩⟩]))
    | c :: rest =>
      if isWs c && s.SOL && s.multiline = 0 then
        let p := eatWs (c :: rest)
        tokLoop fuel { s with input := p.2, SOL := false } line (col + p.1)
          (acc ++ [⟨.SPACE, .numv p.1, ⟨line, col⟩⟩])
      else if isWs c then
        let p := eatWs (c :: rest)
        tokLoop fuel { s with input := p.2, SOL := false } line (col + p.1) acc
      else if c = '\n' then
        if s.multiline = 0 then
          tokLoop fuel { s with input := rest, SOL := true } (line + 1) 1
            (acc ++ [⟨.EOL, .nullv, ⟨line, col⟩⟩])
        else
          tokLoop fuel { s with input := rest, SOL := true } (line + 1) 1 acc
      else if c = '"' then
        match getStringGo fuel rest s.escaped [c] with
        | none => none
        | some (.error e) => some (.error e)
        | some (.ok (v, r)) =>
          tokLoop fuel { s with input := r, escaped := false, SOL := false }
            line (col + v.length)
            (acc ++ [⟨.STRING, .strv v.asString, ⟨line, col⟩⟩])
      else if c = ';' then
        match getCommentGo fuel s.multiline (c :: rest) [] with
        | none => none
        | some (v, r) =>
          tokLoop fuel { s with input := r, SOL := false } line (col + v.length)
            (acc ++ [⟨.COMMENT, .strv v.asString, ⟨line, col⟩⟩])
      else if c = '(' then
        tokLoop fuel
          { s with input := rest, multiline := s.multiline + 1, SOL := false }
          line (col + 1) acc
      else if c = ')' then
        if s.multiline = 0 then some (.error .unbalancedParens)
        else
          tokLoop fuel
            { s with input := rest, multiline := s.multiline - 1, SOL := false }
            line (col + 1) acc
      else
        let p := getWord (c :: rest) []
        tokLoop fuel { s with input := p.2, SOL := false } line (col + p.1.length)
          (acc ++ [⟨.WORD, .strv p.1.asString, ⟨line, col⟩⟩])

/-- Embeds constructing a `_Tokenizer` on an input and consuming its token
sequence. -/
def tokenizeAll (fuel : Nat) (input : List Char) :
    Option (Except PyErr (List Token)) :=
  tokLoop fuel ⟨input, 0, false, true⟩ 1 1 []

/-! RR registry (arke/rr.py). -/

/-- ASCII uppercase, embedding str.upper() on the mnemonic vocabulary. -/
def upChar (c : Char) : Char :=
  if 'a' ≤ c && c ≤ 'z' then Char.ofNat (c.toNat - 32) else c

def upStr (s : String) : String := (s.toList.map upChar).asString

/-- The keys of the static TYPES table filled at the bottom of arke/rr.py. -/
def TYPES : List String :=
  ["A", "NS", "CNAME", "SOA", "MB", "MG", "MR", "WKS", "PTR", "HINFO",
   "MINFO", "MX", "TXT", "RP", "AFSDB", "X25", "ISDN", "RT", "NSAP",
   "NSAP-PTR", "PX", "GPOS", "AAAA", "LOC", "SRV", "NAPTR", "KX", "CERT",
   "DNAME", "APL", "DS", "SSHFP", "IPSECKEY", "RRSIG", "NSEC", "DNSKEY",
   "DHCID", "NSEC3", "NSEC3PARAM", "TLSA", "SMIMEA", "HIP", "CDS",
   "CDNSKEY", "OPENPGPKEY", "CSYNC", "SPF", "NID", "L32", "L64", "LP",
   "EUI48", "EUI64", "URI", "CAA", "DLV"]

def digitB (c : Char) : Bool := '0' ≤ c && c ≤ '9'

/-- Matches the anchored regex for the RFC3597 TYPE-number form. -/
def typeNumForm (s : String) : Bool :=
  match s.toList with
  | 'T' :: 'Y' :: 'P' :: 'E' :: ds => !ds.isEmpty && ds.all digitB
  | _ => false

/-- Matches the anchored regex for the RFC3597 CLASS-number form. -/
def classNumForm (s : String) : Bool :=
  match s.toList with
  | 'C' :: 'L' :: 'A' :: 'S' :: 'S' :: ds => !ds.isEmpty && ds.all digitB
  | _ => false

/-- Embeds arke.rr.is_type for a string argument (the only case the parser
reaches): a TYPES key or a TYPE-number form, both on the uppercased word. -/
def is_type (s : String) : Bool :=
  TYPES.contains (upStr s) || typeNumForm (upStr s)

/-- Embeds arke.rr.get_type_mnemonic for a string argument: a registry hit
returns the uppercased word; otherwise the TYPE-number regex is tried on
the original (not uppercased) string and returns it; otherwise ValueError. -/
def get_type_mnemonic (s : String) : Except PyErr String :=
  if TYPES.contains (upStr s) then .ok (upStr s)
  else if typeNumForm s then .ok s
  else .error .valueError

/-- A class object of the CLASSES table (mnemonic, long name, value). -/
structure ClassObj where
  mnemonic : String
  long_name : String
  value : Nat
deriving DecidableEq, Repr

def classIN : ClassObj := ⟨"IN", "Internet", 1⟩

def classCH : ClassObj := ⟨"CH", "Chaos", 3⟩

def classHS : ClassObj := ⟨"HS", "Hesiod", 4⟩

def CLASSES : List (String × ClassObj) :=
  [("IN", classIN), ("CH", classCH), ("HS", classHS)]

/-- Embeds the Python membership test `s in C` where `C` is a class object:
classes define neither a containment nor an iteration protocol, so the
test raises TypeError. -/
def memClassObj (_ : String) (_ : ClassObj) : Except PyErr Bool :=
  .error .typeError

/-- The loop of arke.rr.is_class: each iteration tests membership of the
uppercased word in a class object (memClassObj). The fallback after the
loop calls the misspelled attribute uppper(), an AttributeError; it is
reachable only if CLASSES were empty. -/
def isClassGo (s : String) : List (String × ClassObj) → Except PyErr Bool
  | [] => .error .attributeError
  | kv :: rest => do
    let b ← memClassObj (upStr s) kv.2
    if b then .ok true else isClassGo s rest

/-- Embeds arke.rr.is_class for a string argument. -/
def is_class (s : String) : Except PyErr Bool := isClassGo s CLASSES

/-- Embeds arke.rr.get_class_mnemonic for a string argument. -/
def get_class_mnemonic (s : String) : Except PyErr String :=
  match CLASSES.lookup (upStr s) with
  | some c => .ok c.mnemonic
  | none => if classNumForm (upStr s) then .ok s else .error .valueError

/-- RDATA field names of the A type (arke/rr.py, via _ADDRESS). -/
def A_rdata_fields : List String := ["ip"]

/-- RDATA field names of the SOA type (arke/rr.py). -/
def SOA_rdata_fields : List String :=
  ["mname", "rname", "serial", "refresh", "retry", "expiry", "negttl"]

/-- Embeds dict(zip(fields, values)): pairing stops at the shorter list, so
excess values are dropped. -/
def dictZip (fields vals : List String) : List (String × String) :=
  List.zip fields vals

/-- Embeds arke.rr.get_class for an argument that is a class object or None:
a class object is returned unchanged; None falls through to
get_class_value, which raises ValueError. -/
def get_class_obj : Option ClassObj → Except PyErr ClassObj
  | some c => .ok c
  | none => .error .valueError

/-- The class validity check opening RR.__init__. For a type whose first
valid class is not the wildcard, get_class_mnemonic(rrclass) is compared
against the list; a failing check executes `raise (ValueError, msg)`,
which raises a tuple, itself a TypeError in Python 3. -/
def rrClassCheck (valid_classes : List String) (rrclass : Option ClassObj) :
    Except PyErr Unit := do
  if valid_classes.head? = some "*" then
    .ok ()
  else
    let m ← (match rrclass with
      | some c => Except.ok c.mnemonic
      | none => Except.error PyErr.valueError)
    if valid_classes.contains m then .ok () else .error .typeError

/-- Embeds RR.__init__ (arke/rr.py): the class validity check, the
get_class resolution, then the rdata field loop, which raises
KeyError(field) when a registered field is absent from the supplied
mapping. Returns the assigned field/value pairs in field order. -/
def rrInit (valid_classes : List String) (rrclass : Option ClassObj)
    (rdata_fields : List String) (rdata : List (String × String)) :
    Except PyErr (List (String × String)) := do
  rrClassCheck valid_classes rrclass
  let _ ← get_class_obj rrclass
  rdata_fields.foldlM
    (fun out f =>
      match rdata.lookup f with
      | some v => Except.ok (out ++ [(f, v)])
      | none => Except.error (PyErr.keyError f))
    []

/-! Domain model (arke/domain.py). -/

/-- Embeds Domain._label_split as a recursion over the characters with the
current-label accumulator. `none` embeds the uncaught StopIteration from
peeking past a trailing backslash. -/
def labelSplitGo : List Char → List Char → Option (List (List Char))
  | [], cur => some [cur]
  | c :: rest, cur =>
    if c = '\\' then
      match rest with
      | [] => none
      | c2 :: rest2 =>
        if c2 = '.' then labelSplitGo rest2 (cur ++ ['.'])
        else labelSplitGo rest2 (cur ++ [c, c2])
    else if c = '.' then (labelSplitGo rest []).map (fun ls => cur :: ls)
    else labelSplitGo rest (cur ++ [c])

def labelSplit (l : List Char) : Option (List (List Char)) := labelSplitGo l []

/-- Embeds the per-label escaping of Domain._label_unsplit: every literal
period inside a label is rendered as a backslash followed by a period. -/
def escapeLabel : List Char → List Char
  | [] => []
  | c :: rest =>
    if c = '.' then '\\' :: '.' :: escapeLabel rest
    else c :: escapeLabel rest

/-- Embeds Domain._label_unsplit: join the escaped labels with periods. -/
def labelUnsplit : List (List Char) → List Char
  | [] => []
  | [l] => escapeLabel l
  | l :: ls => escapeLabel l ++ '.' :: labelUnsplit ls

/-- Every backslash in the text is immediately followed by a period, i.e.
the only escape sequences are escaped periods. -/
def onlyEscapedDots : List Char → Bool
  | [] => true
  | c :: rest =>
    if c = '\\' then
      match rest with
      | [] => false
      | c2 :: rest2 => if c2 = '.' then onlyEscapedDots rest2 else false
    else onlyEscapedDots rest

def endsInDot (l : List Char) : Bool := l.getLast? == some '.'

def strEndsDot (s : String) : Bool := s.toList.getLast? == some '.'

/-- A Domain value: a label tuple with either no origin (None) or an origin
domain. -/
inductive Domain where
  | root (labels : List String)
  | sub (labels : List String) (origin : Domain)
deriving DecidableEq, Repr

/-- Embeds Domain.__init__ . The module-level DOMAINS registry reassigns a
local binding only, which has no caller-visible effect, so it is omitted
(spec section 9 records this as a known defect). -/
def mkDomain (name : String) (origin : Option Domain) : Except PyErr Domain :=
  let keep := if !(strEndsDot name) && origin.isSome then origin else none
  let name2 := if keep.isNone && !(strEndsDot name) then name ++ "." else name
  match labelSplit name2.toList with
  | none => .error .stopIteration
  | some ls =>
    let labels := ls.map List.asString
    .ok (match keep with
      | some o => Domain.sub labels o
      | none => Domain.root labels)

/-- Embeds Domain.__gt__ under Python 3 comparison dispatch. Origin cases:
both None → TypeError (None supports no ordering); exactly one None → the
Domain operand's comparison method runs (directly or reflected) and
evaluates the None operand's origin attribute → AttributeError; both
Domains → recursive __gt__. When the recursion yields a falsy result the
second disjunct compares two reversed() iterator objects, which support
no ordering → TypeError. -/
def domainGt : Domain → Domain → Except PyErr Bool
  | .sub _ o1, .sub _ o2 => do
    let b ← domainGt o1 o2
    if b then Except.ok true else .error .typeError
  | .root _, .root _ => .error .typeError
  | _, _ => .error .attributeError

/-- Embeds Domain.__lt__ (same dispatch analysis as domainGt). -/
def domainLt : Domain → Domain → Except PyErr Bool
  | .sub _ o1, .sub _ o2 => do
    let b ← domainLt o1 o2
    if b then Except.ok true else .error .typeError
  | .root _, .root _ => .error .typeError
  | _, _ => .error .attributeError

/-- Embeds Domain.__eq__: the name tuples are compared first (short-circuit
False on mismatch); then the origins, where comparing a Domain origin with
a None origin evaluates None.name (directly or reflected) and raises
AttributeError. -/
def domainEqPy : Domain → Domain → Except PyErr Bool
  | .root n1, .root n2 => .ok (n1 = n2)
  | .sub n1 o1, .sub n2 o2 =>
    if n1 = n2 then domainEqPy o1 o2 else .ok false
  | .sub n1 _, .root n2 =>
    if n1 = n2 then .error .attributeError else .ok false
  | .root n1, .sub n2 _ =>
    if n1 = n2 then .error .attributeError else .ok false

/-- Embeds Domain.__ge__: `self > other or self == other`. -/
def domainGe (d e : Domain) : Except PyErr Bool := do
  let b ← domainGt d e
  if b then Except.ok true else domainEqPy d e

/-- Embeds Domain.__le__: `self < other or self == other`. -/
def domainLe (d e : Domain) : Except PyErr Bool := do
  let b ← domainLt d e
  if b then Except.ok true else domainEqPy d e

def errB {α : Type} : Except PyErr α → Bool
  | .error _ => true
  | .ok _ => false

/-! Zone container (arke/zone.py). -/

/-- A resource record instance: the attributes RR.__init__ stores. The owner
name is kept in the form the constructor received (the repository's test
passes plain strings). -/
structure RRv where
  mnemonic : String
  oname : String
  rrclass : String
  ttl : Option Nat
  rdata : List (String × String)
deriving DecidableEq, Repr

/-- A Zone: the OrderedDict contents plus the attributes __init__ assigns. -/
structure Zone where
  name : String
  default_ttl : Option Nat
  items : List (String × List RRv)
deriving DecidableEq, Repr

/-- Embeds Zone.__init__: a trailing period is appended to the name when
absent; the ordered mapping starts empty. -/
def mkZone (name : String) : Zone :=
  ⟨if strEndsDot name then name else name ++ ".", none, []⟩

/-- Embeds Zone.add_rr: append to the owner's bucket, creating the bucket at
the end of insertion order when absent. -/
def add_rr (z : Zone) (rr : RRv) : Zone :=
  if (z.items.lookup rr.oname).isSome then
    { z with items :=
        z.items.map (fun kv => if kv.1 = rr.oname then (kv.1, kv.2 ++ [rr]) else kv) }
  else
    { z with items := z.items ++ [(rr.oname, [rr])] }

/-- Zone.__init__ assigns only name and default_ttl, and add_rr stores the
records in the OrderedDict itself (self[oname]); no method ever assigns an
rrs attribute, so the self.rrs lookups in __str__ and del_rr raise
AttributeError. -/
def zone_rrs (_ : Zone) : Except PyErr (List (String × List RRv)) :=
  .error .attributeError

/-- Embeds the membership test `k in rr` on an RR instance, which defines
neither a containment nor an iteration protocol: TypeError. -/
def memRR (_ : String) (_ : RRv) : Except PyErr Bool := .error .typeError

/-- Embeds Zone.del_rr. Its first statement iterates self.rrs, which raises
AttributeError (zone_rrs); the loop is kept for structure but is
unreachable, and its own first test, `k not in rr`, would itself raise
TypeError (memRR). -/
def del_rr (z : Zone) (kwargs : List (String × String)) : Except PyErr Zone := do
  let rrs ← zone_rrs z
  for kv in rrs do
    for rr in kv.2 do
      for kw in kwargs do
        let b ← memRR kw.1 rr
        if !b then pure ()
  .ok z

/-! Zone parser (arke/zone.py). -/

/-- The members of the parser's want list (strings in the source). -/
inductive Want where
  | oname
  | comment
  | ttl
  | rrclass
  | rrtype
  | rdata
  | EOL
  | EOF
deriving DecidableEq, Repr

/-- The parser's state dictionary. last_oname is written exactly where the
source writes it: only in the initial reset (to None); next_token is
initialized and never read. -/
structure PState where
  last_oname : Option String
  next_token : Option String
  oname : Option String
  rrtype : Option String
  rrclass : Option String
  ttl : Option Nat
  rdata : List String
  want : List Want
deriving DecidableEq, Repr

/-- Embeds reset_state: the per-record fields are cleared, last_oname is
kept, want is untouched. -/
def resetState (st : PState) : PState :=
  { st with next_token := none, oname := none, rrtype := none,
            rrclass := none, ttl := none, rdata := [] }

/-- Embeds last_step(EOL): reset plus the initial want list. -/
def lastStepEOL (st : PState) : PState :=
  { resetState st with want := [Want.oname, Want.comment] }

/-- Embeds last_step(oname). -/
def lastStepOname (st : PState) : PState :=
  { st with want := [Want.ttl, Want.rrclass, Want.rrtype] }

/-- Embeds last_step(ttl): start from rrclass/rrtype and drop whichever the
state already holds. -/
def lastStepTtl (st : PState) : PState :=
  { st with want := [Want.rrclass, Want.rrtype].filter (fun w =>
      match w with
      | Want.rrclass => st.rrclass.isNone
      | Want.rrtype => st.rrtype.isNone
      | _ => true) }

/-- Embeds last_step(rrclass): start from ttl/rrtype and drop whichever the
state already holds. -/
def lastStepRrclass (st : PState) : PState :=
  { st with want := [Want.ttl, Want.rrtype].filter (fun w =>
      match w with
      | Want.ttl => st.ttl.isNone
      | Want.rrtype => st.rrtype.isNone
      | _ => true) }

/-- Embeds last_step(rrtype). -/
def lastStepRrtype (st : PState) : PState :=
  { st with want := [Want.rdata] }

/-- Embeds last_step(rdata). -/
def lastStepRdata (st : PState) : PState :=
  { st with want := [Want.rdata, Want.EOL, Want.EOF] }

/-- The state _ZoneParser.__init__ builds: reset with last_oname None, then
last_step(EOL). -/
def initState : PState :=
  lastStepEOL ⟨none, none, none, none, none, none, [], []⟩

/-- Falsy test used by the required-data check (None or the empty string). -/
def strOptFalsy : Option String → Bool
  | none => true
  | some s => s = ""

/-- Embeds _ZoneParser.compile_state. The required-data check would raise
MissingData, but building that message calls map() with a single argument,
which raises TypeError first. Otherwise the owner name is resolved to a
Domain (origin-qualified against the zone name unless it ends in a
period), and then the source calls arke.rr.get_type, a function that does
not exist in arke/rr.py, so every reachable compilation raises
AttributeError before any rdata matching. -/
def compile_state (st : PState) (zoneName : String) : Except PyErr RRv := do
  if strOptFalsy st.oname || strOptFalsy st.rrtype || st.rdata.isEmpty then
    .error .typeError
  else
    let oname := st.oname.getD ""
    let origin ← (if strEndsDot oname then Except.ok (none : Option Domain)
      else do
        let d ← mkDomain zoneName none
        Except.ok (some d))
    let _name ← mkDomain oname origin
    .error .attributeError

/-- Embeds `self.tok.peek() is TokenType.WORD`: the peeked value is a Token
namedtuple instance and the right operand is a TokenType enum member; the
identity test between values of distinct types is always False. -/
def tokenIsWordEnum (_ : Token) : Bool := false

def tokenStr (t : Token) : String :=
  match t.value with
  | .strv s => s
  | _ => ""

/-- Embeds str.isdigit on a word. -/
def isDigits (s : String) : Bool := !s.isEmpty && s.toList.all digitB

/-- Embeds int() on an all-digits word. -/
def strToNat (s : String) : Nat :=
  s.toList.foldl (fun a c => a * 10 + (c.toNat - 48)) 0

/-- Embeds the _ZoneParser.parse loop over an already-produced token list
(the tokenizer is a single forward pass; the peekable lookahead is the
head of the remaining list, and peeking an exhausted stream raises
StopIteration). Errors surface exactly where the source raises. -/
def parseLoop : List Token → PState → Zone → Except PyErr (PState × Zone)
  | [], st, z => .ok (st, z)
  | t :: rest, st, z =>
    match t.type with
    | .COMMENT => parseLoop rest st z
    | .EOL =>
      if st.want.contains Want.EOL then do
        let rr ← compile_state st z.name
        parseLoop rest (lastStepEOL (resetState st)) (add_rr z rr)
      else .error .unexpectedEOL
    | .EOF =>
      if st.want.contains Want.EOL then do
        let rr ← compile_state st z.name
        parseLoop rest (lastStepEOL (resetState st)) (add_rr z rr)
      else .error .unexpectedEOF
    | .SPACE =>
      match rest.head? with
      | none => .error .stopIteration
      | some nt =>
        if tokenIsWordEnum nt then
          if st.want.contains Want.oname then
            parseLoop rest (lastStepOname { st with oname := st.last_oname }) z
          else parseLoop rest st z
        else parseLoop rest st z
    | .STRING =>
      if st.want.contains Want.rdata then
        parseLoop rest { st with rdata := st.rdata ++ [tokenStr t] } z
      else .error .unexpectedToken
    | .WORD =>
      let v := tokenStr t
      if st.want.contains Want.oname then
        parseLoop rest (lastStepOname { st with oname := some v }) z
      else if st.want.contains Want.rdata then
        parseLoop rest (lastStepRdata { st with rdata := st.rdata ++ [v] }) z
      else if isDigits v && st.want.contains Want.ttl then
        parseLoop rest (lastStepTtl { st with ttl := some (strToNat v) }) z
      else if is_type v then do
        let m ← get_type_mnemonic v
        parseLoop rest (lastStepRrtype { st with rrtype := some m }) z
      else do
        let b ← is_class v
        if b then do
          let m ← get_class_mnemonic v
          parseLoop rest (lastStepRrclass { st with rrclass := some m }) z
        else .error .unexpectedToken

/-- The Python value of a completed parse() call: the method has no return
statement, so it returns None. -/
def parseReturnValue : Option Zone := none

/-- Embeds _ZoneParser.__init__ (which already runs the whole parse) followed
by Zone.from_file returning `parser.parse()`: the token stream is
exhausted by then, so the second call iterates nothing and yields
parseReturnValue. -/
def fromFileTokens (toks : List Token) (name : String) :
    Except PyErr (Option Zone) := do
  let z := mkZone name
  let p ← parseLoop toks initState z
  let _ ← parseLoop [] p.1 p.2
  .ok parseReturnValue

/-- Zone.from_file over raw text: tokenize (fuel-indexed), then parse. The
real pipeline interleaves the two lazily; eager tokenization is equivalent
for the properties proved below. -/
def fromFile (fuel : Nat) (input : List Char) (name : String) :
    Option (Except PyErr (Option Zone)) :=
  (tokenizeAll fuel input).map (fun r => do
    let toks ← r
    fromFileTokens toks name)

/-- Running the parser itself over raw text, exposing the final state. -/
def parseText (fuel : Nat) (input : List Char) (name : String) :
    Option (Except PyErr (PState × Zone)) :=
  (tokenizeAll fuel input).map (fun r => do
    let toks ← r
    parseLoop toks initState (mkZone name))

/-! Concrete inputs used by the theorems below. -/

/-- The literal eight-line fixture of spec section 8 (identical to the
repository's test sample after indentation cleanup, with no trailing
newline). -/
def fixtureText : String :=
  "@ IN SOA foo.example.com. hostmaster.example.com. (\n            1 ; serial\n            3600; refresh\n            3600 ; retry\n            2 ; expiry\n            300; negttl )\n    IN A 192.0.2.1\nfoo IN A 192.0.2.2"

def spaceTok : Token := ⟨.SPACE, .numv 2, ⟨2, 1⟩⟩

def wordTok (s : String) (col : Nat) : Token := ⟨.WORD, .strv s, ⟨2, col⟩⟩

/-- A parser state that reached end of line holding an A record with one
excess rdata value. -/
def stExcess : PState :=
  { initState with oname := some "@", rrtype := some "A",
                   rdata := ["192.0.2.1", "extra"],
                   want := [Want.rdata, Want.EOL, Want.EOF] }

/-- The same state with the exact rdata arity for the A type. -/
def stExact : PState :=
  { initState with oname := some "@", rrtype := some "A",
                   rdata := ["192.0.2.1"],
                   want := [Want.rdata, Want.EOL, Want.EOF] }

def isMissingDataErr : Except PyErr RRv → Bool
  | .error .missingData => true
  | _ => false

/-- The sample zone the repository's test setUp builds by hand through
add_rr (an SOA and an A at the apex, an A at foo.example.com.). -/
def soaEx : RRv :=
  ⟨"SOA", "example.com", "IN", none,
   [("mname", "foo.example.com."), ("rname", "hostmaster.example.com."),
    ("serial", "1"), ("refresh", "3600"), ("retry", "3600"),
    ("expiry", "2"), ("negttl", "300")]⟩

def aEx1 : RRv := ⟨"A", "example.com", "IN", none, [("ip", "192.0.2.1")]⟩

def aEx2 : RRv := ⟨"A", "foo.example.com.", "IN", none, [("ip", "192.0.2.2")]⟩

def zoneEx : Zone := add_rr (add_rr (add_rr (mkZone "example.com") soaEx) aEx1) aEx2

/-- C1: parsing the section 8 fixture against zone name example.com is
claimed to produce the two-owner Zone; instead the parser raises TypeError
at the fixture's first IN token, because arke.rr.is_class tests membership
of the word in a class object. No Zone contents are ever produced. -/
theorem C1_fixture_parse_raises_typeError :
    parseText 600 fixtureText.toList "example.com" = some (.error .typeError) := by
  rfl

/-- C2: on a SPACE token followed by a WORD while oname is wanted, the claim
says the parser sets oname to last_oname and advances the want-set; in the
code the peeked Token is compared with the TokenType.WORD enum member by
identity, which is always False, so the state is left unchanged and the
following WORD 3600 is then consumed as the owner name (and last_oname,
never assigned anywhere, is still None afterwards). -/
theorem C2_space_inheritance_never_fires :
    parseLoop [spaceTok, wordTok "3600" 3] initState (mkZone "example.com")
      = .ok
          ({ initState with
              oname := some "3600",
              want := [Want.ttl, Want.rrclass, Want.rrtype] },
           mkZone "example.com") := by
  rfl

/-- C3 counterexample: with the owner name read and rrclass wanted, the word
IN is claimed to resolve as a class; instead is_class raises TypeError on
its first membership test, so the parse aborts. -/
theorem C3_class_word_raises_typeError :
    parseLoop [wordTok "@" 1, wordTok "IN" 3] initState (mkZone "example.com")
      = .error .typeError := by
  rfl

/-- C3 amended: WORD dispatch tries type resolution before class resolution
and consults no want-set for either; a recognized type word becomes the
type (here A right after the owner name), while is_class raises TypeError
on every argument, so class assignment and the UnexpectedToken fallback
after it are unreachable. -/
theorem C3_type_first_class_broken :
    (∀ s, is_class s = .error .typeError)
    ∧ parseLoop [wordTok "@" 1, wordTok "A" 3] initState (mkZone "example.com")
      = .ok
          ({ initState with
              oname := some "@",
              rrtype := some "A",
              want := [Want.rdata] },
           mkZone "example.com") := by
  exact ⟨fun s => rfl, rfl⟩

/-- C4 counterexample: compiling a record whose rdata has one value too many
for the A type raises AttributeError (arke.rr.get_type does not exist),
exactly as compiling the well-arity record does, and in neither case is
MissingData raised: no count comparison ever happens. -/
theorem C4_no_arity_check_happens :
    compile_state stExcess "example.com." = .error .attributeError
    ∧ compile_state stExact "example.com." = .error .attributeError
    ∧ isMissingDataErr (compile_state stExcess "example.com.") = false := by
  exact ⟨rfl, rfl, rfl⟩

/-- C4 amended: record compilation raises AttributeError before any rdata
matching; in the code that would follow, dict(zip(fields, values)) keeps
only the pairs up to the shorter list, so the excess A value is silently
dropped and RR.__init__ succeeds, while a one-value shortfall for SOA
surfaces as KeyError for the first unfilled field, never MissingData. -/
theorem C4_zip_truncates_and_shortfall_is_keyError :
    compile_state stExcess "example.com." = .error .attributeError
    ∧ dictZip A_rdata_fields ["192.0.2.1", "extra"] = [("ip", "192.0.2.1")]
    ∧ rrInit ["*"] (some classIN) A_rdata_fields
        (dictZip A_rdata_fields ["192.0.2.1", "extra"]) = .ok [("ip", "192.0.2.1")]
    ∧ rrInit ["*"] (some classIN) SOA_rdata_fields
        (dictZip SOA_rdata_fields
          ["foo.example.com.", "hostmaster.example.com.", "1", "3600", "3600", "2"])
      = .error (.keyError "negttl") := by
  exact ⟨rfl, rfl, rfl, rfl⟩

/-- C5: the claim says a blank or comment-only line produces no record and no
error; in the code the initial want-set is oname/comment, EOL is not in
it, so the EOL of a comment-only line and of an empty line both raise
UnexpectedEOL. -/
theorem C5_blank_and_comment_lines_raise :
    parseText 50 (";c\n".toList) "example.com" = some (.error .unexpectedEOL)
    ∧ parseText 50 ("\n".toList) "example.com" = some (.error .unexpectedEOL) := by
  exact ⟨rfl, rfl⟩

/-- C6 counterexample: on empty input Zone.from_file does not return None (or
anything else): the parse run by _ZoneParser.__init__ receives EOF while
EOL is not wanted and raises UnexpectedEOF. -/
theorem C6_empty_input_raises :
    fromFile 4 ("".toList) "example.com" = some (.error .unexpectedEOF) := by
  rfl

/-- C7: del_rr with the single constraint type=A on the test's sample zone is
claimed to delete the A records and drop emptied buckets; instead it
raises AttributeError immediately, because no Zone method ever assigns the
rrs attribute it iterates. -/
theorem C7_del_rr_raises_attributeError :
    del_rr zoneEx [("type", "A")] = .error .attributeError := by
  rfl

/-! Supporting lemmas for the tokenizer divergence (claim C8). -/

/-- Once the input is exhausted, the comment scanner makes no progress: each
step only burns fuel, so it never returns for any fuel. -/
theorem getCommentGo_nil_input : ∀ (f m : Nat) (acc : List Char),
    getCommentGo f m [] acc = none := by
  intro f
  induction f with
  | zero => intro m acc; rfl
  | succ f ih => intro m acc; exact ih m acc

/-- The comment scanner started on a comment that reaches end of input never
returns. -/
theorem getCommentGo_semicolon_x : ∀ f : Nat,
    getCommentGo f 0 (';' :: 'x' :: []) [] = none := by
  intro f
  match f with
  | 0 => rfl
  | 1 => rfl
  | f + 2 => exact getCommentGo_nil_input f 0 (';' :: 'x' :: [])

/-- Once the input is exhausted, the string scanner makes no progress: each
step clears the escape flag and only burns fuel. -/
theorem getStringGo_nil_input : ∀ (f : Nat) (esc : Bool) (acc : List Char),
    getStringGo f [] esc acc = none := by
  intro f
  induction f with
  | zero => intro esc acc; rfl
  | succ f ih => intro esc acc; exact ih false acc

/-- The string scanner on an unterminated quoted string never returns. -/
theorem getStringGo_unterminated : ∀ f : Nat,
    getStringGo f ('a' :: []) false ('"' :: []) = none := by
  intro f
  match f with
  | 0 => rfl
  | f + 1 => exact getStringGo_nil_input f false ('"' :: 'a' :: [])

/-- C8: the claim says iteration over any finite input terminates (EOF token
or a tokenizer error); for a comment that reaches the end of input and for
an unterminated quoted string the scanners re-read the empty string
forever, so no amount of fuel makes the token sequence finish. -/
theorem C8_tokenizer_never_terminates : ∀ fuel : Nat,
    tokenizeAll fuel (";x".toList) = none
    ∧ tokenizeAll fuel ("\"a".toList) = none := by
  intro fuel
  constructor
  · cases fuel with
    | zero => rfl
    | succ f =>
      show (match getCommentGo f 0 (';' :: 'x' :: []) [] with
            | none => (none : Option (Except PyErr (List Token)))
            | some (v, r) =>
              tokLoop f { input := r, multiline := 0, escaped := false, SOL := false }
                1 (1 + v.length)
                ([] ++ [⟨TokenType.COMMENT, TValue.strv v.asString, ⟨1, 1⟩⟩])) = none
      rw [getCommentGo_semicolon_x f]
  · cases fuel with
    | zero => rfl
    | succ f =>
      show (match getStringGo f ('a' :: []) false ('"' :: []) with
            | none => (none : Option (Except PyErr (List Token)))
            | some (.error e) => some (.error e)
            | some (.ok (v, r)) =>
              tokLoop f { input := r, multiline := 0, escaped := false, SOL := false }
                1 (1 + v.length)
                ([] ++ [⟨TokenType.STRING, TValue.strv v.asString, ⟨1, 1⟩⟩])) = none
      rw [getStringGo_unterminated f]

/-! Supporting lemmas for the label round-trip (claim C9). -/

theorem escapeLabel_append (a b : List Char) :
    escapeLabel (a ++ b) = escapeLabel a ++ escapeLabel b := by
  induction a with
  | nil => rfl
  | cons c a ih =>
    by_cases h : c = '.'
    · subst h; simp [escapeLabel, ih]
    · simp [escapeLabel, h, ih]

theorem onlyEscapedDots_other (c : Char) (rest : List Char) (h : ¬c = '\\') :
    onlyEscapedDots (c :: rest) = onlyEscapedDots rest := by
  rw [onlyEscapedDots.eq_def]
  simp [h]

theorem labelSplitGo_other (c : Char) (rest cur : List Char)
    (h1 : ¬c = '\\') (h2 : ¬c = '.') :
    labelSplitGo (c :: rest) cur = labelSplitGo rest (cur ++ [c]) := by
  rw [labelSplitGo.eq_def]
  simp [h1, h2]

theorem escapeLabel_other (c : Char) (rest : List Char) (h : ¬c = '.') :
    escapeLabel (c :: rest) = c :: escapeLabel rest := by
  rw [escapeLabel.eq_def]
  simp [h]

/-- The split/render round trip, generalized over the current-label
accumulator: on text whose only escapes are escaped periods, splitting
succeeds with a nonempty label list whose rendering is the escaped
accumulator followed by the remaining text. -/
theorem splitGo_roundtrip : ∀ (n : Nat) (l cur : List Char), l.length ≤ n →
    onlyEscapedDots l = true →
    ∃ ls, labelSplitGo l cur = some ls ∧ ls ≠ [] ∧
      labelUnsplit ls = escapeLabel cur ++ l := by
  intro n
  induction n with
  | zero =>
    intro l cur hlen _h
    have hnil : l = [] := List.length_eq_zero.mp (Nat.le_zero.mp hlen)
    subst hnil
    exact ⟨[cur], rfl, by simp, by simp [labelUnsplit]⟩
  | succ n ih =>
    intro l cur hlen h
    cases l with
    | nil => exact ⟨[cur], rfl, by simp, by simp [labelUnsplit]⟩
    | cons c rest =>
      have hlen2 : rest.length ≤ n := by
        simp only [List.length_cons] at hlen; omega
      by_cases hb : c = '\\'
      · subst hb
        cases rest with
        | nil => exact absurd h (by decide)
        | cons c2 rest2 =>
          by_cases hc : c2 = '.'
          · subst hc
            have h2 : onlyEscapedDots rest2 = true := by
              simpa [onlyEscapedDots] using h
            have hlen3 : rest2.length ≤ n := by
              simp only [List.length_cons] at hlen; omega
            obtain ⟨ls, heq, hne, hun⟩ := ih rest2 (cur ++ ['.']) hlen3 h2
            refine ⟨ls, ?_, hne, ?_⟩
            · simpa [labelSplitGo] using heq
            · rw [hun, escapeLabel_append]
              simp [escapeLabel]
          · exfalso
            have hfalse : onlyEscapedDots ('\\' :: c2 :: rest2) = false := by
              simp [onlyEscapedDots, hc]
            rw [hfalse] at h
            exact Bool.noConfusion h
      · by_cases hd : c = '.'
        · subst hd
          have h2 : onlyEscapedDots rest = true := by
            rw [onlyEscapedDots.eq_def] at h
            simpa using h
          obtain ⟨ls, heq, hne, hun⟩ := ih rest [] hlen2 h2
          refine ⟨cur :: ls, ?_, by simp, ?_⟩
          · rw [labelSplitGo.eq_def]
            simp [heq]
          · cases ls with
            | nil => exact absurd rfl hne
            | cons a as =>
              have hstep : labelUnsplit (cur :: a :: as)
                  = escapeLabel cur ++ '.' :: labelUnsplit (a :: as) := rfl
              rw [hstep, hun]
              simp [escapeLabel]
        · have h2 : onlyEscapedDots rest = true := by
            rw [onlyEscapedDots_other c rest hb] at h
            exact h
          have hgo : labelSplitGo (c :: rest) cur = labelSplitGo rest (cur ++ [c]) :=
            labelSplitGo_other c rest cur hb hd
          obtain ⟨ls, heq, hne, hun⟩ := ih rest (cur ++ [c]) hlen2 h2
          refine ⟨ls, by rw [hgo, heq], hne, ?_⟩
          rw [hun, escapeLabel_append]
          have hone : escapeLabel [c] = [c] := by
            rw [escapeLabel_other c [] hd]
            rfl
          rw [hone]
          simp

/-- C9: on a fully qualified text form whose only escape sequences are
escaped periods, rendering after splitting restores the input exactly. -/
theorem C9_label_split_roundtrip (l : List Char)
    (h1 : onlyEscapedDots l = true) (h2 : endsInDot l = true) :
    (labelSplit l).map labelUnsplit = some l := by
  obtain ⟨ls, heq, -, hun⟩ := splitGo_roundtrip l.length l [] le_rfl h1
  unfold labelSplit
  rw [heq]
  simpa [escapeLabel] using congrArg some hun

/-- Witness for C9 at the concrete fully qualified text
foo(escaped period)bar.example.com. -/
theorem C9_label_split_roundtrip_witness :
    onlyEscapedDots ("foo\\.bar.example.com.".toList) = true
    ∧ endsInDot ("foo\\.bar.example.com.".toList) = true
    ∧ (labelSplit ("foo\\.bar.example.com.".toList)).map labelUnsplit
      = some ("foo\\.bar.example.com.".toList) :=
  ⟨by decide, by decide,
   C9_label_split_roundtrip ("foo\\.bar.example.com.".toList) (by decide) (by decide)⟩

/-! Supporting lemmas for the Domain ordering (claim C10). -/

/-- Domain.__gt__ raises on every pair of Domain operands. -/
theorem domainGt_raises : ∀ d e : Domain, errB (domainGt d e) = true := by
  intro d
  induction d with
  | root labels =>
    intro e
    cases e with
    | root l2 => rfl
    | sub l2 o2 => rfl
  | sub labels o ih =>
    intro e
    cases e with
    | root l2 => rfl
    | sub l2 o2 =>
      have h := ih o2
      cases hgt : domainGt o o2 with
      | error err => simp [domainGt, hgt, errB, Bind.bind, Except.bind]
      | ok b => rw [hgt] at h; exact absurd h (by simp [errB])

/-- Domain.__lt__ raises on every pair of Domain operands. -/
theorem domainLt_raises : ∀ d e : Domain, errB (domainLt d e) = true := by
  intro d
  induction d with
  | root labels =>
    intro e
    cases e with
    | root l2 => rfl
    | sub l2 o2 => rfl
  | sub labels o ih =>
    intro e
    cases e with
    | root l2 => rfl
    | sub l2 o2 =>
      have h := ih o2
      cases hlt : domainLt o o2 with
      | error err => simp [domainLt, hlt, errB, Bind.bind, Except.bind]
      | ok b => rw [hlt] at h; exact absurd h (by simp [errB])

/-- C10: the claim says the four ordering comparisons are defined and realize
canonical DNS order; instead every comparison of two Domain values raises
(TypeError for None-vs-None origins or for the reversed-iterator
comparison, AttributeError when exactly one origin is None), so no
ordering is ever computed. -/
theorem C10_domain_order_always_raises : ∀ d e : Domain,
    errB (domainGt d e) = true ∧ errB (domainLt d e) = true
    ∧ errB (domainGe d e) = true ∧ errB (domainLe d e) = true := by
  intro d e
  have hgt := domainGt_raises d e
  have hlt := domainLt_raises d e
  refine ⟨hgt, hlt, ?_, ?_⟩
  · cases h : domainGt d e with
    | error err => simp [domainGe, h, errB, Bind.bind, Except.bind]
    | ok b => rw [h] at hgt; exact absurd hgt (by simp [errB])
  · cases h : domainLt d e with
    | error err => simp [domainLe, h, errB, Bind.bind, Except.bind]
    | ok b => rw [h] at hlt; exact absurd hlt (by simp [errB])

/-! Supporting definitions for claim C6. -/

/-- True unless the result is a completed call returning an actual Zone. -/
def noZoneResult : Option (Except PyErr (Option Zone)) → Bool
  | some (.ok (some _)) => false
  | _ => true

/-- C6 amended: Zone.from_file never returns the parsed Zone. Whatever the
input, fuel, or zone name, a run either fails to terminate, raises, or
completes returning None, because parse() has no return statement; the
constructed Zone is reachable only through the parser's zone attribute. -/
theorem C6_from_file_never_returns_zone :
    ∀ (fuel : Nat) (input : List Char) (name : String),
    noZoneResult (fromFile fuel input name) = true := by
  intro fuel input name
  unfold fromFile
  cases htok : tokenizeAll fuel input with
  | none => rfl
  | some r =>
    cases r with
    | error e => rfl
    | ok toks =>
      show noZoneResult (some (fromFileTokens toks name)) = true
      unfold fromFileTokens
      cases hp : parseLoop toks initState (mkZone name) with
      | error e => simp [hp, noZoneResult, Bind.bind, Except.bind]
      | ok p =>
        have h2 : parseLoop ([] : List Token) p.1 p.2 = .ok (p.1, p.2) := rfl
        simp [hp, h2, noZoneResult, Bind.bind, Except.bind, parseReturnValue]
